import Mathlib

/-!
A shallow embedding of the single-decree Paxos core in `paxos/node.py`
(classes `Proposer`, `Acceptor`, `Learner`), together with theorems checking
the natural-language specification against the embedded code.

Modelling conventions:
* A proposal id is the Python tuple `(proposal_number, node_uid)`; numbers are
  Python ints (modelled as `Int`), uids are modelled as `Nat`.
* Python `None` is `Option.none`; a field that may hold `None` has an `Option`
  type.  Python 2 comparison places `None` strictly below every tuple and
  compares tuples lexicographically; the `oLtB`/`oGtB`/`oGeB` helpers encode
  exactly that order.
* The `Messenger` is modelled as a list of emitted events returned alongside
  the post-state; the upward callbacks `on_leadership_acquired` and
  `on_resolution` appear in the same event list.
* Python dicts are modelled as association lists with functional update
  (`pmSet`/`pmErase`), which implement `d[k] = v` / `del d[k]` exactly with
  respect to lookup.
* The Learner's `assert` and the `KeyError`/`AttributeError` a dict/None
  access would raise are modelled by `Except LErr`.
-/

namespace Paxos

/-- Proposal id: the Python tuple `(proposal_number, node_uid)`. -/
abbrev PId := Int × Nat

/-- Python 2 `<` on two real proposal-id tuples: lexicographic. -/
def pidLtB (a b : PId) : Bool :=
  decide (a.1 < b.1 ∨ (a.1 = b.1 ∧ a.2 < b.2))

/-- Python 2 `>` on two real proposal-id tuples. -/
def pidGtB (a b : PId) : Bool := pidLtB b a

/-- Python 2 `>=` on two real proposal-id tuples (total order, so `not <`). -/
def pidGeB (a b : PId) : Bool := !(pidLtB a b)

/-- Python 2 `<` where either side may be `None` (`None` is below every tuple). -/
def oLtB : Option PId → Option PId → Bool
  | none, none => false
  | none, some _ => true
  | some _, none => false
  | some a, some b => pidLtB a b

/-- Python 2 `>` on possibly-`None` proposal ids. -/
def oGtB (a b : Option PId) : Bool := oLtB b a

/-- Python 2 `>=` on possibly-`None` proposal ids. -/
def oGeB (a b : Option PId) : Bool := !(oLtB a b)

/-- Python 2 `<=` on possibly-`None` proposal ids. -/
def oLeB (a b : Option PId) : Bool := !(oLtB b a)

/-- An application value.  Opaque in the spec; we model the Python payloads the
claims exercise (strings and ints), which is enough to express Python
truthiness where the source relies on it. -/
inductive Val where
  | str : String → Val
  | int : Int → Val
deriving DecidableEq, Repr

/-- Python truthiness of a value (`""` and `0` are falsy). -/
def Val.truthy : Val → Bool
  | .str s => decide (s ≠ "")
  | .int n => decide (n ≠ 0)

/-- Python truthiness of a possibly-`None` value (`None` is falsy). -/
def truthyOpt : Option Val → Bool
  | none => false
  | some v => v.truthy

/-- An outbound event: a `Messenger.send_*` call or an upward callback. -/
inductive Msg where
  | prepare (proposal_id : Option PId)
  | promise (to_uid : Nat) (proposal_id : PId) (previous_id : Option PId)
      (accepted_value : Option Val)
  | prepareNack (to_uid : Nat) (proposal_id : PId) (promised_id : Option PId)
  | accept (proposal_id : Option PId) (proposal_value : Option Val)
  | acceptNack (to_uid : Nat) (proposal_id : PId) (promised_id : Option PId)
  | accepted (to_uid : Nat) (proposal_id : PId) (accepted_value : Option Val)
  | leadershipAcquired
  | resolution (proposal_id : PId) (value : Option Val)
deriving DecidableEq, Repr

/-! ## Proposer (`class Proposer`, node.py lines 63–167) -/

/-- The `Proposer` fields (class attributes of `Proposer`). -/
structure Proposer where
  node_uid : Nat
  quorum_size : Nat
  proposed_value : Option Val := none
  proposal_id : Option PId := none
  last_accepted_id : Option PId := none
  next_proposal_number : Int := 1
  promises_rcvd : Finset Nat := ∅
  leader : Bool := false
deriving DecidableEq

/-- `Proposer.set_proposal(value)`. -/
def set_proposal (s : Proposer) (value : Option Val) : Proposer × List Msg :=
  if s.proposed_value = none then
    ({ s with proposed_value := value },
     if s.leader then [Msg.accept s.proposal_id value] else [])
  else
    (s, [])

/-- `Proposer.prepare(increment_proposal_number=True)`. -/
def prepare (s : Proposer) (increment_proposal_number : Bool) : Proposer × List Msg :=
  if increment_proposal_number then
    let s' : Proposer :=
      { s with leader := false
               promises_rcvd := ∅
               proposal_id := some (s.next_proposal_number, s.node_uid)
               next_proposal_number := s.next_proposal_number + 1 }
    (s', [Msg.prepare s'.proposal_id])
  else
    (s, [Msg.prepare s.proposal_id])

/-- `Proposer.observe_proposal(from_uid, proposal_id)`. -/
def observe_proposal (s : Proposer) (from_uid : Nat) (proposal_id : PId) : Proposer :=
  if from_uid ≠ s.node_uid then
    if pidGeB proposal_id (s.next_proposal_number, s.node_uid) then
      { s with next_proposal_number := proposal_id.1 + 1 }
    else s
  else s

/-- `Proposer.recv_prepare_nack(from_uid, proposal_id, promised_id)`. -/
def recv_prepare_nack (s : Proposer) (from_uid : Nat) (_proposal_id : PId)
    (promised_id : PId) : Proposer :=
  observe_proposal s from_uid promised_id

/-- `Proposer.recv_accept_nack` — a no-op in the source. -/
def recv_accept_nack (s : Proposer) (_from_uid : Nat) (_proposal_id : PId)
    (_promised_id : PId) : Proposer :=
  s

/-- `Proposer.resend_accept()`.  Note the source tests `self.proposed_value`
for Python truthiness, not `is not None`. -/
def resend_accept (s : Proposer) : Proposer × List Msg :=
  if s.leader && truthyOpt s.proposed_value then
    (s, [Msg.accept s.proposal_id s.proposed_value])
  else
    (s, [])

/-- `Proposer.recv_promise(from_uid, proposal_id, prev_accepted_id,
prev_accepted_value)`. -/
def recv_promise (s : Proposer) (from_uid : Nat) (proposal_id : PId)
    (prev_accepted_id : Option PId) (prev_accepted_value : Option Val) :
    Proposer × List Msg :=
  let s1 : Proposer :=
    { s with next_proposal_number :=
        if pidGtB proposal_id (s.next_proposal_number - 1, s.node_uid) then
          proposal_id.1 + 1
        else s.next_proposal_number }
  if s1.leader || some proposal_id ≠ s1.proposal_id ||
      from_uid ∈ s1.promises_rcvd then
    (s1, [])
  else
    let s2 : Proposer := { s1 with promises_rcvd := insert from_uid s1.promises_rcvd }
    let s3 : Proposer :=
      if oGtB prev_accepted_id s2.last_accepted_id then
        { s2 with last_accepted_id := prev_accepted_id
                  proposed_value :=
                    if prev_accepted_value ≠ none then prev_accepted_value
                    else s2.proposed_value }
      else s2
    if s3.promises_rcvd.card = s3.quorum_size then
      ({ s3 with leader := true },
       Msg.leadershipAcquired ::
         (if s3.proposed_value ≠ none then
            [Msg.accept s3.proposal_id s3.proposed_value]
          else []))
    else
      (s3, [])

/-! ## Acceptor (`class Acceptor`, node.py lines 173–209) -/

/-- The `Acceptor` fields. -/
structure Acceptor where
  promised_id : Option PId := none
  accepted_value : Option Val := none
  accepted_id : Option PId := none
  previous_id : Option PId := none
deriving DecidableEq

/-- `Acceptor.recv_prepare(from_uid, proposal_id)`. -/
def recv_prepare (s : Acceptor) (from_uid : Nat) (proposal_id : PId) :
    Acceptor × List Msg :=
  if some proposal_id = s.promised_id then
    (s, [Msg.promise from_uid proposal_id s.previous_id s.accepted_value])
  else if oGtB (some proposal_id) s.promised_id then
    let s' : Acceptor := { s with previous_id := s.promised_id
                                  promised_id := some proposal_id }
    (s', [Msg.promise from_uid proposal_id s'.previous_id s'.accepted_value])
  else
    (s, [Msg.prepareNack from_uid proposal_id s.promised_id])

/-- `Acceptor.recv_accept_request(from_uid, proposal_id, value)`. -/
def recv_accept_request (s : Acceptor) (from_uid : Nat) (proposal_id : PId)
    (value : Option Val) : Acceptor × List Msg :=
  if oGeB (some proposal_id) s.promised_id then
    let s' : Acceptor := { s with accepted_value := value
                                  promised_id := some proposal_id }
    (s', [Msg.accepted from_uid proposal_id s'.accepted_value])
  else
    (s, [Msg.acceptNack from_uid proposal_id s.promised_id])

/-! ## Learner (`class Learner`, node.py lines 214–269) -/

/-- One entry of `Learner.proposals`: the Python list
`[accept_count, retain_count, value]`. -/
structure LProp where
  accept_count : Int
  retain_count : Int
  value : Option Val
deriving DecidableEq, Repr

/-- `Learner.proposals`, a dict keyed by proposal id. -/
abbrev PMap := List (PId × LProp)

/-- `Learner.acceptors`, a dict keyed by acceptor uid. -/
abbrev AMap := List (Nat × PId)

/-- Dict lookup (`d.get(k)` / `d[k]` when present). -/
def pmFind : PMap → PId → Option LProp
  | [], _ => none
  | (k', v') :: rest, k => if k' = k then some v' else pmFind rest k

/-- Dict deletion `del d[k]`. -/
def pmErase (m : PMap) (k : PId) : PMap :=
  m.filter (fun e => decide (e.1 ≠ k))

/-- Dict assignment `d[k] = v` (functional update; lookup-equivalent). -/
def pmSet (m : PMap) (k : PId) (v : LProp) : PMap :=
  (k, v) :: pmErase m k

/-- Dict lookup in `acceptors` (`d.get(k)`). -/
def aFind : AMap → Nat → Option PId
  | [], _ => none
  | (k', v') :: rest, k => if k' = k then some v' else aFind rest k

/-- Dict assignment `acceptors[k] = v`. -/
def aSet (m : AMap) (k : Nat) (v : PId) : AMap :=
  (k, v) :: m.filter (fun e => decide (e.1 ≠ k))

/-- A fatal runtime error inside `Learner.recv_accepted`: the `assert`, or the
exception a missing dict key / `None` dict would raise. -/
inductive LErr where
  | keyError
  | assertionError
deriving DecidableEq, Repr

/-- The `Learner` fields. -/
structure Learner where
  quorum_size : Nat
  proposals : Option PMap := none
  acceptors : Option AMap := none
  final_value : Option Val := none
  final_proposal_id : Option PId := none
deriving DecidableEq, Repr

/-- `Learner.complete` (property). -/
def Learner.complete (s : Learner) : Bool :=
  decide (s.final_proposal_id ≠ none)

/-- Steps 5–8 of `Learner.recv_accepted` (node.py lines 253–269): ensure a
`proposals` entry exists, assert value agreement, increment both counters, and
fire resolution when `accept_count` reaches `quorum_size`.  `accs2` is the
already-updated `acceptors` dict and `ps2` the `proposals` dict after the
garbage-collection step. -/
def recvAcceptedTally (s : Learner) (_from_uid : Nat) (proposal_id : PId)
    (accepted_value : Option Val) (accs2 : AMap) (ps2 : PMap) :
    Except LErr (Learner × List Msg) :=
  let ps3 :=
    if pmFind ps2 proposal_id = none then
      pmSet ps2 proposal_id ⟨0, 0, accepted_value⟩
    else ps2
  match pmFind ps3 proposal_id with
  | none => Except.error LErr.keyError
  | some t =>
    if accepted_value ≠ t.value then
      Except.error LErr.assertionError
    else
      let t2 : LProp := ⟨t.accept_count + 1, t.retain_count + 1, t.value⟩
      if t2.accept_count = (s.quorum_size : Int) then
        Except.ok
          ({ s with final_value := accepted_value
                    final_proposal_id := some proposal_id
                    proposals := none
                    acceptors := none },
           [Msg.resolution proposal_id accepted_value])
      else
        Except.ok
          ({ s with proposals := some (pmSet ps3 proposal_id t2)
                    acceptors := some accs2 }, [])

/-- `Learner.recv_accepted(from_uid, proposal_id, accepted_value)` (steps 1–4;
steps 5–8 are `recvAcceptedTally`). -/
def recv_accepted (s : Learner) (from_uid : Nat) (proposal_id : PId)
    (accepted_value : Option Val) : Except LErr (Learner × List Msg) :=
  if s.final_value ≠ none then
    Except.ok (s, [])
  else
    let s' : Learner :=
      if s.proposals = none then
        { s with proposals := some [], acceptors := some [] }
      else s
    match s'.proposals, s'.acceptors with
    | some ps, some accs =>
      let last_pn := aFind accs from_uid
      if oGtB (some proposal_id) last_pn then
        let accs2 := aSet accs from_uid proposal_id
        match last_pn with
        | none => recvAcceptedTally s' from_uid proposal_id accepted_value accs2 ps
        | some lp =>
          match pmFind ps lp with
          | none => Except.error LErr.keyError
          | some oldp =>
            if oldp.retain_count - 1 = 0 then
              recvAcceptedTally s' from_uid proposal_id accepted_value accs2
                (pmErase ps lp)
            else
              recvAcceptedTally s' from_uid proposal_id accepted_value accs2
                (pmSet ps lp { oldp with retain_count := oldp.retain_count - 1 })
      else
        Except.ok (s', [])
    | _, _ => Except.error LErr.keyError

/-! ## Operation sequences -/

/-- One Acceptor inbound operation. -/
inductive AOp where
  | prep (from_uid : Nat) (proposal_id : PId)
  | acc (from_uid : Nat) (proposal_id : PId) (value : Option Val)

/-- State transition of one Acceptor operation. -/
def astep (s : Acceptor) : AOp → Acceptor
  | .prep f p => (recv_prepare s f p).1
  | .acc f p v => (recv_accept_request s f p v).1

/-- Run a sequence of Acceptor operations. -/
def arun (s : Acceptor) (ops : List AOp) : Acceptor :=
  ops.foldl astep s

/-- One Proposer operation (the operations named by the spec's counter
monotonicity property). -/
inductive POp where
  | prep (increment_proposal_number : Bool)
  | observe (from_uid : Nat) (proposal_id : PId)
  | promise (from_uid : Nat) (proposal_id : PId) (prev_accepted_id : Option PId)
      (prev_accepted_value : Option Val)
  | prepNack (from_uid : Nat) (proposal_id : PId) (promised_id : PId)
  | setProp (value : Option Val)
  | resend

/-- State transition of one Proposer operation. -/
def pstep (s : Proposer) : POp → Proposer
  | .prep inc => (prepare s inc).1
  | .observe f p => observe_proposal s f p
  | .promise f p a b => (recv_promise s f p a b).1
  | .prepNack f p pr => recv_prepare_nack s f p pr
  | .setProp v => (set_proposal s v).1
  | .resend => (resend_accept s).1

/-- Run a sequence of Proposer operations. -/
def prun (s : Proposer) (ops : List POp) : Proposer :=
  ops.foldl pstep s

/-- The Proposer invariant `next_proposal_number > proposal_id.number`
whenever `proposal_id` is set. -/
def pinvB (s : Proposer) : Bool :=
  match s.proposal_id with
  | none => true
  | some p => decide (p.1 < s.next_proposal_number)

/-- An inbound Promise as received by `Proposer.recv_promise`:
`(from_uid, proposal_id, prev_accepted_id, prev_accepted_value)`. -/
abbrev PromiseIn := Nat × PId × Option PId × Option Val

/-- Run a sequence of `recv_promise` calls, collecting all emitted events. -/
def runPromises (s : Proposer) : List PromiseIn → Proposer × List Msg
  | [] => (s, [])
  | m :: rest =>
    let r := recv_promise s m.1 m.2.1 m.2.2.1 m.2.2.2
    let r' := runPromises r.1 rest
    (r'.1, r.2 ++ r'.2)

/-- Number of `on_leadership_acquired` signals in an event list. -/
def countLeaderSignals (out : List Msg) : Nat :=
  out.countP (fun m => decide (m = Msg.leadershipAcquired))

/-- An inbound Accepted as received by `Learner.recv_accepted`:
`(from_uid, proposal_id, accepted_value)`. -/
abbrev AcceptedIn := Nat × PId × Option Val

/-- Run a sequence of `recv_accepted` calls, collecting all emitted events;
stops at the first fatal error. -/
def runAccepted (s : Learner) : List AcceptedIn → Except LErr (Learner × List Msg)
  | [] => Except.ok (s, [])
  | m :: rest =>
    match recv_accepted s m.1 m.2.1 m.2.2 with
    | Except.error e => Except.error e
    | Except.ok (s', out) =>
      match runAccepted s' rest with
      | Except.error e => Except.error e
      | Except.ok (s'', out') => Except.ok (s'', out ++ out')

/-! ## Derived forms and concrete states used by the theorems -/

/-- Explicit post-state of `recv_promise` once it passes the round/duplicate
filter: counter update, uid inserted, adoption rule applied. -/
def promisePass (s : Proposer) (from_uid : Nat) (proposal_id : PId)
    (prev_accepted_id : Option PId) (prev_accepted_value : Option Val) : Proposer :=
  { s with
    next_proposal_number :=
      if pidGtB proposal_id (s.next_proposal_number - 1, s.node_uid) then
        proposal_id.1 + 1
      else s.next_proposal_number
    promises_rcvd := insert from_uid s.promises_rcvd
    last_accepted_id :=
      if oGtB prev_accepted_id s.last_accepted_id then prev_accepted_id
      else s.last_accepted_id
    proposed_value :=
      if oGtB prev_accepted_id s.last_accepted_id then
        (if prev_accepted_value ≠ none then prev_accepted_value else s.proposed_value)
      else s.proposed_value }

/-- The `proposals` entry that step 5 of `recv_accepted` guarantees for the
incoming proposal: the existing entry, or a fresh `[0, 0, accepted_value]`. -/
def tallyBase (ps : PMap) (pid : PId) (v : Option Val) : LProp :=
  (pmFind ps pid).getD ⟨0, 0, v⟩

/-- Concrete Proposer used by the C1 witness. -/
def C1state : Proposer :=
  { node_uid := 1, quorum_size := 3, proposed_value := some (Val.str "z"),
    proposal_id := some (1, 1) }

/-- Concrete Proposer used by the C4 witness. -/
def C4state : Proposer :=
  { node_uid := 1, quorum_size := 1, proposal_id := some (1, 1),
    proposed_value := some (Val.str "x") }

/-- Concrete Proposer used by the C7 witness. -/
def C7state : Proposer :=
  { node_uid := 1, quorum_size := 1, proposal_id := some (1, 1),
    next_proposal_number := 2 }

/-- A leader Proposer whose proposed value is the legal-but-falsy empty
string; exhibits the `resend_accept` truthiness bug (C8). -/
def C8state : Proposer :=
  { node_uid := 1, quorum_size := 1, proposed_value := some (Val.str ""),
    proposal_id := some (1, 1), leader := true }

/-- Concrete Proposer used by the C10 witness. -/
def C10state : Proposer :=
  { node_uid := 1, quorum_size := 1, proposal_id := some (1, 1), leader := true }

/-- Concrete Acceptor used by the C3 witness to exercise the upgrade path. -/
def C3upstate : Acceptor :=
  { promised_id := some (1, 1), accepted_value := some (Val.str "x") }

/-- Concrete Learner used by the C5 witness. -/
def C5state : Learner :=
  { quorum_size := 3,
    proposals := some [((1, 1), ⟨1, 1, some (Val.str "x")⟩)],
    acceptors := some [(1, (1, 1))] }

/-- Concrete Learner used by the C9 witness. -/
def C9state : Learner :=
  { quorum_size := 3,
    proposals := some [((1, 1), ⟨1, 1, some (Val.str "x")⟩)],
    acceptors := some [(1, (1, 1))] }

/-- Concrete Learner used by the C6 witness. -/
def C6state : Learner :=
  { quorum_size := 1, proposals := some [], acceptors := some [] }

/-- A resolved Learner (non-sentinel final value) used by the C6 witness. -/
def C6res : Learner :=
  { quorum_size := 1, final_value := some (Val.str "x"),
    final_proposal_id := some (1, 1) }

/-! ## Order lemmas -/

theorem pidLtB_irrefl (a : PId) : pidLtB a a = false := by
  simp [pidLtB]

theorem pidLtB_asymm {a b : PId} (h : pidLtB a b = true) : pidLtB b a = false := by
  simp only [pidLtB, decide_eq_true_eq] at h
  simp only [pidLtB, decide_eq_false_iff_not]
  omega

theorem oLtB_asymm {a b : Option PId} (h : oLtB a b = true) : oLtB b a = false := by
  cases a with
  | none => cases b <;> simp [oLtB]
  | some x =>
    cases b with
    | none => simp [oLtB] at h
    | some y => exact pidLtB_asymm h

theorem oLeB_refl (a : Option PId) : oLeB a a = true := by
  cases a <;> simp [oLeB, oLtB, pidLtB]

theorem oLeB_trans {a b c : Option PId} (h1 : oLeB a b = true)
    (h2 : oLeB b c = true) : oLeB a c = true := by
  cases a with
  | none => cases c <;> simp [oLeB, oLtB]
  | some x =>
    cases b with
    | none => simp [oLeB, oLtB] at h1
    | some y =>
      cases c with
      | none => simp [oLeB, oLtB] at h2
      | some z =>
        simp only [oLeB, oLtB, pidLtB, Bool.not_eq_true',
          decide_eq_false_iff_not] at h1 h2 ⊢
        omega

/-- One Acceptor step never lowers `promised_id`. -/
theorem astep_promised_mono (s : Acceptor) (op : AOp) :
    oLeB s.promised_id (astep s op).promised_id = true := by
  cases op with
  | prep f p =>
    simp only [astep, recv_prepare]
    split
    · exact oLeB_refl _
    · split
      next h =>
        simpa [oLeB] using oLtB_asymm (a := s.promised_id) (b := some p) h
      next h => exact oLeB_refl _
  | acc f p v =>
    simp only [astep, recv_accept_request]
    split
    next h =>
      simp only [oGeB, Bool.not_eq_true'] at h
      simp [oLeB, h]
    next h => exact oLeB_refl _

/-- A sequence of Acceptor steps never lowers `promised_id`. -/
theorem arun_promised_mono (ops : List AOp) :
    ∀ s : Acceptor, oLeB s.promised_id (arun s ops).promised_id = true := by
  induction ops with
  | nil => intro s; exact oLeB_refl _
  | cons op rest ih =>
    intro s
    exact oLeB_trans (astep_promised_mono s op) (ih (astep s op))

/-! ## Dict lemmas -/

theorem pmFind_pmErase_ne {k k' : PId} (m : PMap) (h : k' ≠ k) :
    pmFind (pmErase m k) k' = pmFind m k' := by
  induction m with
  | nil => rfl
  | cons e rest ih =>
    simp only [pmErase, List.filter_cons] at ih ⊢
    by_cases he : e.1 = k
    · have hc : decide (e.1 ≠ k) = false := by simp [he]
      have hne : e.1 ≠ k' := fun hh => h (hh ▸ he)
      rw [hc, if_neg (by simp)]
      rw [ih]
      conv_rhs => rw [pmFind]
      rw [if_neg hne]
    · have hc : decide (e.1 ≠ k) = true := by simp [he]
      rw [hc, if_pos rfl]
      rw [pmFind]
      conv_rhs => rw [pmFind]
      by_cases he' : e.1 = k'
      · rw [if_pos he', if_pos he']
      · rw [if_neg he', if_neg he', ih]

theorem pmFind_pmErase_self (m : PMap) (k : PId) :
    pmFind (pmErase m k) k = none := by
  induction m with
  | nil => rfl
  | cons e rest ih =>
    simp only [pmErase, List.filter_cons] at ih ⊢
    by_cases he : e.1 = k
    · have hc : decide (e.1 ≠ k) = false := by simp [he]
      rw [hc, if_neg (by simp)]
      exact ih
    · have hc : decide (e.1 ≠ k) = true := by simp [he]
      rw [hc, if_pos rfl, pmFind, if_neg he]
      exact ih

theorem pmFind_pmSet_self (m : PMap) (k : PId) (v : LProp) :
    pmFind (pmSet m k v) k = some v := by
  simp [pmSet, pmFind]

theorem pmFind_pmSet_ne {k k' : PId} (m : PMap) (h : k' ≠ k) (v : LProp) :
    pmFind (pmSet m k v) k' = pmFind m k' := by
  have hk : k ≠ k' := fun hh => h hh.symm
  rw [pmSet, pmFind, if_neg hk]
  exact pmFind_pmErase_ne m h

theorem aFind_filter_ne {k k' : Nat} (m : AMap) (h : k' ≠ k) :
    aFind (m.filter (fun e => decide (e.1 ≠ k))) k' = aFind m k' := by
  induction m with
  | nil => rfl
  | cons e rest ih =>
    simp only [List.filter_cons]
    by_cases he : e.1 = k
    · have hc : decide (e.1 ≠ k) = false := by simp [he]
      have hne : e.1 ≠ k' := fun hh => h (hh ▸ he)
      rw [hc, if_neg (by simp)]
      rw [ih]
      conv_rhs => rw [aFind]
      rw [if_neg hne]
    · have hc : decide (e.1 ≠ k) = true := by simp [he]
      rw [hc, if_pos rfl]
      rw [aFind]
      conv_rhs => rw [aFind]
      by_cases he' : e.1 = k'
      · rw [if_pos he', if_pos he']
      · rw [if_neg he', if_neg he', ih]

theorem aFind_aSet_self (m : AMap) (k : Nat) (v : PId) :
    aFind (aSet m k v) k = some v := by
  simp [aSet, aFind]

theorem aFind_aSet_ne {k k' : Nat} (m : AMap) (h : k' ≠ k) (v : PId) :
    aFind (aSet m k v) k' = aFind m k' := by
  have hk : k ≠ k' := fun hh => h hh.symm
  rw [aSet, aFind, if_neg hk]
  exact aFind_filter_ne m h

/-! ## Claim C2 -/

/-- C2: for every Acceptor state and every single `recv_prepare` or
`recv_accept_request` operation, `promised_id` after the operation is `≥`
`promised_id` before it (absent below every real id); hence `promised_id` is
non-decreasing over any sequence of Acceptor operations. -/
theorem C2_promised_id_monotonic (s : Acceptor) (from_uid : Nat)
    (proposal_id : PId) (value : Option Val) (ops : List AOp) :
    oLeB s.promised_id (recv_prepare s from_uid proposal_id).1.promised_id = true ∧
    oLeB s.promised_id
      (recv_accept_request s from_uid proposal_id value).1.promised_id = true ∧
    oLeB s.promised_id (arun s ops).promised_id = true :=
  ⟨astep_promised_mono s (.prep from_uid proposal_id),
   astep_promised_mono s (.acc from_uid proposal_id value),
   arun_promised_mono ops s⟩

/-! ## Claim C3 -/

/-- C3: delivering the same Prepare twice in succession leaves the second call
with the identical output (in particular the identical
`(previous_id, accepted_value)` pair inside the Promise) and no state change;
on the upgrade path `proposal_id > promised_id`, `previous_id` is assigned
the old `promised_id` (and the Promise reports exactly that pair), and on the
duplicate or NACK paths `previous_id` is never assigned. -/
theorem C3_recv_prepare_idempotent (s : Acceptor) (from_uid : Nat)
    (proposal_id : PId) :
    recv_prepare (recv_prepare s from_uid proposal_id).1 from_uid proposal_id
      = recv_prepare s from_uid proposal_id ∧
    (oGtB (some proposal_id) s.promised_id = true →
      (recv_prepare s from_uid proposal_id).1.previous_id = s.promised_id ∧
      (recv_prepare s from_uid proposal_id).1.promised_id = some proposal_id ∧
      (recv_prepare s from_uid proposal_id).2
        = [Msg.promise from_uid proposal_id s.promised_id s.accepted_value]) ∧
    (oGtB (some proposal_id) s.promised_id = false →
      (recv_prepare s from_uid proposal_id).1.previous_id = s.previous_id) := by
  by_cases hdup : some proposal_id = s.promised_id
  · have h1 : recv_prepare s from_uid proposal_id
        = (s, [Msg.promise from_uid proposal_id s.previous_id s.accepted_value]) := by
      simp [recv_prepare, hdup]
    rw [h1]
    refine ⟨h1, ?_, fun _ => rfl⟩
    intro hg
    rw [← hdup] at hg
    have hg' : pidLtB proposal_id proposal_id = true := hg
    rw [pidLtB_irrefl] at hg'
    exact (Bool.false_ne_true hg').elim
  · by_cases hgt : oGtB (some proposal_id) s.promised_id = true
    · have h1 : recv_prepare s from_uid proposal_id
          = ({ s with previous_id := s.promised_id, promised_id := some proposal_id },
             [Msg.promise from_uid proposal_id s.promised_id s.accepted_value]) := by
        simp [recv_prepare, hdup, hgt]
      rw [h1]
      refine ⟨?_, fun _ => ⟨rfl, rfl, rfl⟩, fun hng => absurd hgt (by simp [hng])⟩
      simp [recv_prepare]
    · have hgt' : oGtB (some proposal_id) s.promised_id = false := by
        simpa using hgt
      have h1 : recv_prepare s from_uid proposal_id
          = (s, [Msg.prepareNack from_uid proposal_id s.promised_id]) := by
        simp [recv_prepare, hdup, hgt']
      rw [h1]
      exact ⟨h1, fun hg => absurd hg (by simp [hgt']), fun _ => rfl⟩

/-- Witness for C3 at two concrete inputs: the NACK path (promised at `(2,2)`,
Prepare at `(1,1)`: idempotent, `previous_id` untouched) and the upgrade path
(`C3upstate` promised at `(1,1)`, Prepare at `(2,2)`: `previous_id` becomes
the old promised id `(1,1)` and the Promise reports it). -/
theorem C3_recv_prepare_idempotent_witness :
    recv_prepare (recv_prepare { promised_id := some (2, 2) } 1 (1, 1)).1 1 (1, 1)
      = recv_prepare { promised_id := some (2, 2) } 1 (1, 1) ∧
    (recv_prepare ({ promised_id := some (2, 2) } : Acceptor) 1 (1, 1)).1.previous_id
      = ({ promised_id := some (2, 2) } : Acceptor).previous_id ∧
    (recv_prepare C3upstate 1 (2, 2)).1.previous_id = some (1, 1) ∧
    (recv_prepare C3upstate 1 (2, 2)).1.promised_id = some (2, 2) ∧
    (recv_prepare C3upstate 1 (2, 2)).2
      = [Msg.promise 1 (2, 2) (some (1, 1)) (some (Val.str "x"))] :=
  ⟨(C3_recv_prepare_idempotent { promised_id := some (2, 2) } 1 (1, 1)).1,
   (C3_recv_prepare_idempotent { promised_id := some (2, 2) } 1 (1, 1)).2.2
     (by decide),
   ((C3_recv_prepare_idempotent C3upstate 1 (2, 2)).2.1 (by decide)).1,
   ((C3_recv_prepare_idempotent C3upstate 1 (2, 2)).2.1 (by decide)).2.1,
   ((C3_recv_prepare_idempotent C3upstate 1 (2, 2)).2.1 (by decide)).2.2⟩


/-! ## recv_promise characterization -/

theorem recv_promise_pass (s : Proposer) (from_uid : Nat) (proposal_id : PId)
    (prev_accepted_id : Option PId) (prev_accepted_value : Option Val)
    (h1 : s.leader = false) (h2 : s.proposal_id = some proposal_id)
    (h3 : from_uid ∉ s.promises_rcvd) :
    recv_promise s from_uid proposal_id prev_accepted_id prev_accepted_value =
      (if (insert from_uid s.promises_rcvd).card = s.quorum_size then
         ({ promisePass s from_uid proposal_id prev_accepted_id prev_accepted_value
              with leader := true },
          Msg.leadershipAcquired ::
            (if (promisePass s from_uid proposal_id prev_accepted_id
                   prev_accepted_value).proposed_value ≠ none then
               [Msg.accept s.proposal_id
                  (promisePass s from_uid proposal_id prev_accepted_id
                     prev_accepted_value).proposed_value]
             else []))
       else
         (promisePass s from_uid proposal_id prev_accepted_id prev_accepted_value,
          [])) := by
  by_cases hg : oGtB prev_accepted_id s.last_accepted_id = true <;>
    by_cases hq : (insert from_uid s.promises_rcvd).card = s.quorum_size <;>
      simp [recv_promise, promisePass, h1, h2, h3, hg, hq]

theorem recv_promise_blocked (s : Proposer) (from_uid : Nat) (proposal_id : PId)
    (prev_accepted_id : Option PId) (prev_accepted_value : Option Val)
    (h : s.leader = true ∨ s.proposal_id ≠ some proposal_id ∨
         from_uid ∈ s.promises_rcvd) :
    recv_promise s from_uid proposal_id prev_accepted_id prev_accepted_value =
      ({ s with next_proposal_number :=
           if pidGtB proposal_id (s.next_proposal_number - 1, s.node_uid) then
             proposal_id.1 + 1
           else s.next_proposal_number }, []) := by
  rcases h with hl | hp | hm
  · simp [recv_promise, hl]
  · have hne : some proposal_id ≠ s.proposal_id := fun hh => hp hh.symm
    simp [recv_promise, hne]
  · simp [recv_promise, hm]

theorem recv_promise_next_pid (s : Proposer) (from_uid : Nat) (proposal_id : PId)
    (prev_accepted_id : Option PId) (prev_accepted_value : Option Val) :
    (recv_promise s from_uid proposal_id prev_accepted_id
        prev_accepted_value).1.next_proposal_number =
      (if pidGtB proposal_id (s.next_proposal_number - 1, s.node_uid) then
         proposal_id.1 + 1
       else s.next_proposal_number) ∧
    (recv_promise s from_uid proposal_id prev_accepted_id
        prev_accepted_value).1.proposal_id = s.proposal_id := by
  by_cases h1 : s.leader = false
  · by_cases h2 : s.proposal_id = some proposal_id
    · by_cases h3 : from_uid ∈ s.promises_rcvd
      · rw [recv_promise_blocked s from_uid proposal_id prev_accepted_id
            prev_accepted_value (Or.inr (Or.inr h3))]
        exact ⟨rfl, rfl⟩
      · rw [recv_promise_pass s from_uid proposal_id prev_accepted_id
            prev_accepted_value h1 h2 h3]
        constructor <;> split <;> simp [promisePass, h2]
    · rw [recv_promise_blocked s from_uid proposal_id prev_accepted_id
          prev_accepted_value (Or.inr (Or.inl h2))]
      exact ⟨rfl, rfl⟩
  · rw [recv_promise_blocked s from_uid proposal_id prev_accepted_id
        prev_accepted_value (Or.inl (by simpa using h1))]
    exact ⟨rfl, rfl⟩

theorem countLeaderSignals_append (xs ys : List Msg) :
    countLeaderSignals (xs ++ ys) = countLeaderSignals xs + countLeaderSignals ys :=
  List.countP_append _ _ _

theorem recv_promise_out_shape (s : Proposer) (f : Nat) (p : PId)
    (a : Option PId) (b : Option Val) :
    (recv_promise s f p a b).2 = [] ∨
      ((recv_promise s f p a b).1.leader = true ∧
       countLeaderSignals (recv_promise s f p a b).2 = 1) := by
  by_cases h1 : s.leader = false
  · by_cases h2 : s.proposal_id = some p
    · by_cases h3 : f ∈ s.promises_rcvd
      · rw [recv_promise_blocked s f p a b (Or.inr (Or.inr h3))]
        exact Or.inl rfl
      · rw [recv_promise_pass s f p a b h1 h2 h3]
        split
        · refine Or.inr ⟨rfl, ?_⟩
          split <;> simp [countLeaderSignals]
        · exact Or.inl rfl
    · rw [recv_promise_blocked s f p a b (Or.inr (Or.inl h2))]
      exact Or.inl rfl
  · rw [recv_promise_blocked s f p a b (Or.inl (by simpa using h1))]
    exact Or.inl rfl

theorem recv_promise_leader_stays (s : Proposer) (f : Nat) (p : PId)
    (a : Option PId) (b : Option Val) (h : s.leader = true) :
    (recv_promise s f p a b).1.leader = true ∧ (recv_promise s f p a b).2 = [] := by
  rw [recv_promise_blocked s f p a b (Or.inl h)]
  exact ⟨h, rfl⟩

theorem runPromises_leader_true (msgs : List PromiseIn) :
    ∀ s : Proposer, s.leader = true →
      (runPromises s msgs).1.leader = true ∧ (runPromises s msgs).2 = [] := by
  induction msgs with
  | nil => intro s h; exact ⟨h, rfl⟩
  | cons m rest ih =>
    intro s h
    have hstep := recv_promise_leader_stays s m.1 m.2.1 m.2.2.1 m.2.2.2 h
    have hrest := ih (recv_promise s m.1 m.2.1 m.2.2.1 m.2.2.2).1 hstep.1
    simp only [runPromises]
    exact ⟨hrest.1, by rw [hstep.2, hrest.2]; rfl⟩

theorem runPromises_signal_le_one (msgs : List PromiseIn) :
    ∀ s : Proposer, countLeaderSignals (runPromises s msgs).2 ≤ 1 := by
  induction msgs with
  | nil => intro s; simp [runPromises, countLeaderSignals]
  | cons m rest ih =>
    intro s
    simp only [runPromises, countLeaderSignals_append]
    rcases recv_promise_out_shape s m.1 m.2.1 m.2.2.1 m.2.2.2 with h0 | ⟨hl, h1⟩
    · rw [h0]
      simpa [countLeaderSignals] using ih (recv_promise s m.1 m.2.1 m.2.2.1 m.2.2.2).1
    · rw [h1, (runPromises_leader_true rest _ hl).2]
      simp [countLeaderSignals]

theorem recv_promise_signal_iff (s : Proposer) (f : Nat) (p : PId)
    (a : Option PId) (b : Option Val) :
    Msg.leadershipAcquired ∈ (recv_promise s f p a b).2 ↔
      (s.leader = false ∧ s.proposal_id = some p ∧ f ∉ s.promises_rcvd ∧
       (insert f s.promises_rcvd).card = s.quorum_size) := by
  constructor
  · intro hmem
    by_cases h1 : s.leader = false
    · by_cases h2 : s.proposal_id = some p
      · by_cases h3 : f ∈ s.promises_rcvd
        · rw [recv_promise_blocked s f p a b (Or.inr (Or.inr h3))] at hmem
          simp at hmem
        · rw [recv_promise_pass s f p a b h1 h2 h3] at hmem
          by_cases hq : (insert f s.promises_rcvd).card = s.quorum_size
          · exact ⟨h1, h2, h3, hq⟩
          · rw [if_neg hq] at hmem
            simp at hmem
      · rw [recv_promise_blocked s f p a b (Or.inr (Or.inl h2))] at hmem
        simp at hmem
    · rw [recv_promise_blocked s f p a b (Or.inl (by simpa using h1))] at hmem
      simp at hmem
  · rintro ⟨h1, h2, h3, hq⟩
    rw [recv_promise_pass s f p a b h1 h2 h3, if_pos hq]
    simp

/-! ## Claim C1 -/

/-- C1: whenever `recv_promise` passes the round/duplicate filter (not leader,
`proposal_id` equals the current round id, `from_uid` not yet promised), then
if `prev_accepted_id > last_accepted_id` the Proposer sets
`last_accepted_id := prev_accepted_id` and sets
`proposed_value := prev_accepted_value` only when the latter is not the
"no value" sentinel; a sentinel previous value never replaces `proposed_value`,
and if `prev_accepted_id` is not greater, neither field changes. -/
theorem C1_recv_promise_adopt_rule (s : Proposer) (from_uid : Nat)
    (proposal_id : PId) (prev_accepted_id : Option PId)
    (prev_accepted_value : Option Val)
    (h1 : s.leader = false) (h2 : s.proposal_id = some proposal_id)
    (h3 : from_uid ∉ s.promises_rcvd) :
    (oGtB prev_accepted_id s.last_accepted_id = true →
      (recv_promise s from_uid proposal_id prev_accepted_id
          prev_accepted_value).1.last_accepted_id = prev_accepted_id ∧
      (prev_accepted_value ≠ none →
        (recv_promise s from_uid proposal_id prev_accepted_id
            prev_accepted_value).1.proposed_value = prev_accepted_value) ∧
      (prev_accepted_value = none →
        (recv_promise s from_uid proposal_id prev_accepted_id
            prev_accepted_value).1.proposed_value = s.proposed_value)) ∧
    (oGtB prev_accepted_id s.last_accepted_id = false →
      (recv_promise s from_uid proposal_id prev_accepted_id
          prev_accepted_value).1.last_accepted_id = s.last_accepted_id ∧
      (recv_promise s from_uid proposal_id prev_accepted_id
          prev_accepted_value).1.proposed_value = s.proposed_value) := by
  rw [recv_promise_pass s from_uid proposal_id prev_accepted_id
      prev_accepted_value h1 h2 h3]
  constructor
  · intro hg
    refine ⟨?_, ?_, ?_⟩
    · split <;> simp [promisePass, hg]
    · intro hv
      split <;> simp [promisePass, hg, hv]
    · intro hv
      split <;> simp [promisePass, hg, hv]
  · intro hg
    constructor <;> (split <;> simp [promisePass, hg])

/-- Witness for C1: a Promise carrying a real `prev_accepted_id` and a
sentinel previous value raises `last_accepted_id` but keeps the locally set
value "z". -/
theorem C1_recv_promise_adopt_rule_witness :
    oGtB (some ((0 : Int), (5 : Nat))) C1state.last_accepted_id = true ∧
    (recv_promise C1state 2 (1, 1) (some (0, 5)) none).1.last_accepted_id
      = some (0, 5) ∧
    (recv_promise C1state 2 (1, 1) (some (0, 5)) none).1.proposed_value
      = C1state.proposed_value := by
  have h := (C1_recv_promise_adopt_rule C1state 2 (1, 1) (some (0, 5)) none
    (by decide) rfl (by decide)).1 (by decide)
  exact ⟨by decide, h.1, h.2.2 rfl⟩

/-! ## Claim C4 -/

/-- C4: `on_leadership_acquired` is signalled exactly at the `recv_promise`
call that makes `promises_rcvd` reach `quorum_size` for the current
`proposal_id` (duplicates filtered by uid never re-trigger it); at that point
`leader` becomes true and, if `proposed_value` is set, `Accept` is emitted;
over any sequence of `recv_promise` calls the signal fires at most once. -/
theorem C4_leadership_acquired_edge (s : Proposer) (from_uid : Nat)
    (proposal_id : PId) (prev_accepted_id : Option PId)
    (prev_accepted_value : Option Val) (s0 : Proposer) (msgs : List PromiseIn) :
    (Msg.leadershipAcquired ∈ (recv_promise s from_uid proposal_id
        prev_accepted_id prev_accepted_value).2 ↔
      (s.leader = false ∧ s.proposal_id = some proposal_id ∧
       from_uid ∉ s.promises_rcvd ∧
       (insert from_uid s.promises_rcvd).card = s.quorum_size)) ∧
    (Msg.leadershipAcquired ∈ (recv_promise s from_uid proposal_id
        prev_accepted_id prev_accepted_value).2 →
      (recv_promise s from_uid proposal_id prev_accepted_id
          prev_accepted_value).1.leader = true ∧
      (recv_promise s from_uid proposal_id prev_accepted_id
          prev_accepted_value).2 =
        Msg.leadershipAcquired ::
          (if (recv_promise s from_uid proposal_id prev_accepted_id
                 prev_accepted_value).1.proposed_value ≠ none then
             [Msg.accept s.proposal_id
                (recv_promise s from_uid proposal_id prev_accepted_id
                   prev_accepted_value).1.proposed_value]
           else [])) ∧
    countLeaderSignals (runPromises s0 msgs).2 ≤ 1 := by
  refine ⟨recv_promise_signal_iff s from_uid proposal_id prev_accepted_id
    prev_accepted_value, ?_, runPromises_signal_le_one msgs s0⟩
  intro hmem
  obtain ⟨h1, h2, h3, hq⟩ :=
    (recv_promise_signal_iff s from_uid proposal_id prev_accepted_id
      prev_accepted_value).mp hmem
  rw [recv_promise_pass s from_uid proposal_id prev_accepted_id
      prev_accepted_value h1 h2 h3, if_pos hq]
  exact ⟨rfl, rfl⟩

/-- Witness for C4: with quorum 1, the first Promise trips the signal and
makes the Proposer leader. -/
theorem C4_leadership_acquired_edge_witness :
    Msg.leadershipAcquired ∈ (recv_promise C4state 2 (1, 1) none none).2 ∧
    (recv_promise C4state 2 (1, 1) none none).1.leader = true := by
  have h := C4_leadership_acquired_edge C4state 2 (1, 1) none none C4state []
  have hmem : Msg.leadershipAcquired ∈ (recv_promise C4state 2 (1, 1) none none).2 :=
    h.1.mpr ⟨by decide, rfl, by decide, by decide⟩
  exact ⟨hmem, (h.2.1 hmem).1⟩


/-! ## Claim C7 -/

theorem pstep_next_mono (s : Proposer) (op : POp) :
    s.next_proposal_number ≤ (pstep s op).next_proposal_number := by
  cases op with
  | prep inc =>
    cases inc <;> simp [pstep, prepare]
  | observe f p =>
    simp only [pstep, observe_proposal]
    split
    · split
      next h =>
        simp only [pidGeB, pidLtB, Bool.not_eq_true', decide_eq_false_iff_not] at h
        simp only []
        omega
      · exact le_refl _
    · exact le_refl _
  | promise f p a b =>
    simp only [pstep]
    rw [(recv_promise_next_pid s f p a b).1]
    split
    next h =>
      simp only [pidGtB, pidLtB, decide_eq_true_eq] at h
      omega
    · exact le_refl _
  | prepNack f p pr =>
    simp only [pstep, recv_prepare_nack, observe_proposal]
    split
    · split
      next h =>
        simp only [pidGeB, pidLtB, Bool.not_eq_true', decide_eq_false_iff_not] at h
        simp only []
        omega
      · exact le_refl _
    · exact le_refl _
  | setProp v =>
    simp only [pstep, set_proposal]
    split <;> exact le_refl _
  | resend =>
    simp only [pstep, resend_accept]
    split <;> exact le_refl _

theorem pinv_of_ge {s t : Proposer} (hpid : t.proposal_id = s.proposal_id)
    (hnext : s.next_proposal_number ≤ t.next_proposal_number)
    (h : pinvB s = true) : pinvB t = true := by
  unfold pinvB at h ⊢
  rw [hpid]
  cases hx : s.proposal_id with
  | none => rfl
  | some p =>
    rw [hx] at h
    simp only [decide_eq_true_eq] at h ⊢
    omega

theorem observe_proposal_pid (s : Proposer) (f : Nat) (p : PId) :
    (observe_proposal s f p).proposal_id = s.proposal_id := by
  simp only [observe_proposal]
  split
  · split <;> rfl
  · rfl

theorem pstep_pinv (s : Proposer) (op : POp) (h : pinvB s = true) :
    pinvB (pstep s op) = true := by
  cases op with
  | prep inc =>
    cases inc
    · simpa [pstep, prepare] using h
    · simp [pstep, prepare, pinvB]
  | observe f p =>
    exact pinv_of_ge (observe_proposal_pid s f p)
      (pstep_next_mono s (.observe f p)) h
  | promise f p a b =>
    exact pinv_of_ge (recv_promise_next_pid s f p a b).2
      (pstep_next_mono s (.promise f p a b)) h
  | prepNack f p pr =>
    exact pinv_of_ge (observe_proposal_pid s f pr)
      (pstep_next_mono s (.prepNack f p pr)) h
  | setProp v =>
    refine pinv_of_ge ?_ (pstep_next_mono s (.setProp v)) h
    simp only [pstep, set_proposal]
    split <;> rfl
  | resend =>
    refine pinv_of_ge ?_ (pstep_next_mono s .resend) h
    simp only [pstep, resend_accept]
    split <;> rfl

theorem prun_next_mono (ops : List POp) :
    ∀ s : Proposer, s.next_proposal_number ≤ (prun s ops).next_proposal_number := by
  induction ops with
  | nil => intro s; exact le_refl _
  | cons op rest ih =>
    intro s
    exact le_trans (pstep_next_mono s op) (ih (pstep s op))

theorem prun_pinv (ops : List POp) :
    ∀ s : Proposer, pinvB s = true → pinvB (prun s ops) = true := by
  induction ops with
  | nil => intro s h; exact h
  | cons op rest ih =>
    intro s h
    exact ih (pstep s op) (pstep_pinv s op h)

/-- C7: across every Proposer operation (`prepare`, `observe_proposal`,
`recv_promise`, `recv_prepare_nack`, `set_proposal`, `resend_accept`),
`next_proposal_number` is non-decreasing, and the invariant
`next_proposal_number > proposal_id.number` (whenever `proposal_id` is set) is
preserved, over single steps and over arbitrary operation sequences. -/
theorem C7_counter_monotonic (s : Proposer) (op : POp) (ops : List POp)
    (h : pinvB s = true) :
    s.next_proposal_number ≤ (pstep s op).next_proposal_number ∧
    pinvB (pstep s op) = true ∧
    s.next_proposal_number ≤ (prun s ops).next_proposal_number ∧
    pinvB (prun s ops) = true :=
  ⟨pstep_next_mono s op, pstep_pinv s op h, prun_next_mono ops s, prun_pinv ops s h⟩

/-- Witness for C7 at a concrete state, a peer-observed proposal and a fresh
`prepare`. -/
theorem C7_counter_monotonic_witness :
    C7state.next_proposal_number
        ≤ (pstep C7state (.observe 2 (5, 0))).next_proposal_number ∧
    pinvB (pstep C7state (.observe 2 (5, 0))) = true ∧
    C7state.next_proposal_number
        ≤ (prun C7state [.prep true]).next_proposal_number ∧
    pinvB (prun C7state [.prep true]) = true :=
  C7_counter_monotonic C7state (.observe 2 (5, 0)) [.prep true] (by decide)

/-! ## Claim C8 -/

/-- C8: the claim states `resend_accept` emits `Accept` iff `leader` holds and
`proposed_value` is set (not the sentinel), for every legal value including
the empty string.  The code instead tests Python truthiness
(`if self.leader and self.proposed_value`), so a leader whose proposed value
is the legal empty string emits nothing: the code contradicts the claim at
this input. -/
theorem C8_resend_accept_falsy_value :
    C8state.leader = true ∧ C8state.proposed_value ≠ none ∧
    resend_accept C8state = (C8state, []) := by decide

/-! ## Claim C10 -/

/-- C10: calling `set_proposal` with the sentinel `None` while
`proposed_value` is absent leaves it absent, still emits
`Accept(proposal_id, None)` when already leader, and a later `set_proposal`
with a real value adopts that value for the same round. -/
theorem C10_set_proposal_none_sentinel (s : Proposer) (v : Val)
    (h1 : s.proposed_value = none) (h2 : s.leader = true) :
    (set_proposal s none).1.proposed_value = none ∧
    (set_proposal s none).1.proposal_id = s.proposal_id ∧
    (set_proposal s none).2 = [Msg.accept s.proposal_id none] ∧
    (set_proposal (set_proposal s none).1 (some v)).1.proposed_value = some v := by
  simp [set_proposal, h1, h2]

/-- Witness for C10 at a concrete leader state. -/
theorem C10_set_proposal_none_sentinel_witness :
    (set_proposal C10state none).1.proposed_value = none ∧
    (set_proposal C10state none).1.proposal_id = C10state.proposal_id ∧
    (set_proposal C10state none).2 = [Msg.accept C10state.proposal_id none] ∧
    (set_proposal (set_proposal C10state none).1
        (some (Val.str "x"))).1.proposed_value = some (Val.str "x") :=
  C10_set_proposal_none_sentinel C10state (Val.str "x") rfl rfl


/-! ## Learner lemmas and claims C5, C6, C9 -/

theorem lp_ne_of_oGtB {pid lp : PId} (h : oGtB (some pid) (some lp) = true) :
    lp ≠ pid := by
  intro he
  subst he
  have h' : pidLtB lp lp = true := h
  rw [pidLtB_irrefl] at h'
  exact Bool.false_ne_true h'

theorem recv_accepted_resolved (s : Learner) (f : Nat) (pid : PId)
    (v : Option Val) (w : Val) (h : s.final_value = some w) :
    recv_accepted s f pid v = Except.ok (s, []) := by
  simp [recv_accepted, h]

theorem runAccepted_resolved (calls : List AcceptedIn) :
    ∀ (s : Learner) (w : Val), s.final_value = some w →
      runAccepted s calls = Except.ok (s, []) := by
  induction calls with
  | nil => intro s w _; rfl
  | cons c rest ih =>
    intro s w h
    simp only [runAccepted]
    rw [recv_accepted_resolved s c.1 c.2.1 c.2.2 w h]
    dsimp only
    rw [ih s w h]
    rfl

theorem recv_accepted_stale (s : Learner) (f : Nat) (pid : PId) (v : Option Val)
    (ps : PMap) (accs : AMap)
    (hf : s.final_value = none) (hp : s.proposals = some ps)
    (ha : s.acceptors = some accs)
    (hng : oGtB (some pid) (aFind accs f) = false) :
    recv_accepted s f pid v = Except.ok (s, []) := by
  simp [recv_accepted, hf, hp, ha, hng]

theorem recv_accepted_fresh (s : Learner) (f : Nat) (pid : PId) (v : Option Val)
    (ps : PMap) (accs : AMap)
    (hf : s.final_value = none) (hp : s.proposals = some ps)
    (ha : s.acceptors = some accs) (hnone : aFind accs f = none) :
    recv_accepted s f pid v = recvAcceptedTally s f pid v (aSet accs f pid) ps := by
  simp [recv_accepted, hf, hp, ha, hnone, oGtB, oLtB]

theorem recv_accepted_switch (s : Learner) (f : Nat) (pid : PId) (v : Option Val)
    (ps : PMap) (accs : AMap) (lp : PId) (oldp : LProp)
    (hf : s.final_value = none) (hp : s.proposals = some ps)
    (ha : s.acceptors = some accs) (hlp : aFind accs f = some lp)
    (hgt : oGtB (some pid) (some lp) = true)
    (holdp : pmFind ps lp = some oldp) :
    recv_accepted s f pid v =
      (if oldp.retain_count - 1 = 0 then
         recvAcceptedTally s f pid v (aSet accs f pid) (pmErase ps lp)
       else
         recvAcceptedTally s f pid v (aSet accs f pid)
           (pmSet ps lp { oldp with retain_count := oldp.retain_count - 1 })) := by
  simp [recv_accepted, hf, hp, ha, hlp, hgt, holdp]

theorem tally_found (s : Learner) (f : Nat) (pid : PId) (v : Option Val)
    (accs2 : AMap) (ps2 : PMap) (t : LProp)
    (hfind : pmFind ps2 pid = some t) (hval : t.value = v) :
    recvAcceptedTally s f pid v accs2 ps2 =
      (if t.accept_count + 1 = (s.quorum_size : Int) then
         Except.ok ({ s with final_value := v
                             final_proposal_id := some pid
                             proposals := none
                             acceptors := none },
                    [Msg.resolution pid v])
       else
         Except.ok ({ s with proposals := some (pmSet ps2 pid
                               ⟨t.accept_count + 1, t.retain_count + 1, t.value⟩)
                             acceptors := some accs2 }, [])) := by
  simp [recvAcceptedTally, hfind, hval]

theorem tally_fresh_entry (s : Learner) (f : Nat) (pid : PId) (v : Option Val)
    (accs2 : AMap) (ps2 : PMap)
    (hfind : pmFind ps2 pid = none) :
    recvAcceptedTally s f pid v accs2 ps2 =
      (if (1 : Int) = (s.quorum_size : Int) then
         Except.ok ({ s with final_value := v
                             final_proposal_id := some pid
                             proposals := none
                             acceptors := none },
                    [Msg.resolution pid v])
       else
         Except.ok ({ s with proposals := some (pmSet (pmSet ps2 pid ⟨0, 0, v⟩)
                               pid ⟨1, 1, v⟩)
                             acceptors := some accs2 }, [])) := by
  simp [recvAcceptedTally, hfind, pmFind_pmSet_self]

theorem tally_mismatch (s : Learner) (f : Nat) (pid : PId) (v : Option Val)
    (accs2 : AMap) (ps2 : PMap) (t : LProp)
    (hfind : pmFind ps2 pid = some t) (hval : t.value ≠ v) :
    recvAcceptedTally s f pid v accs2 ps2 = Except.error LErr.assertionError := by
  have hne : v ≠ t.value := fun hh => hval hh.symm
  simp [recvAcceptedTally, hfind, hne]



theorem recv_accepted_nonstale_eq (s : Learner) (f : Nat) (pid : PId)
    (v : Option Val) (ps : PMap) (accs : AMap)
    (hf : s.final_value = none) (hp : s.proposals = some ps)
    (ha : s.acceptors = some accs)
    (hgt : oGtB (some pid) (aFind accs f) = true)
    (hgc : ∀ lp, aFind accs f = some lp → (pmFind ps lp).isSome = true) :
    ∃ ps2,
      recv_accepted s f pid v = recvAcceptedTally s f pid v (aSet accs f pid) ps2 ∧
      pmFind ps2 pid = pmFind ps pid ∧
      (∀ lp oldt, aFind accs f = some lp → pmFind ps lp = some oldt →
        ((oldt.retain_count = 1 → pmFind ps2 lp = none) ∧
         (oldt.retain_count ≠ 1 →
           pmFind ps2 lp =
             some ⟨oldt.accept_count, oldt.retain_count - 1, oldt.value⟩))) := by
  cases hfa : aFind accs f with
  | none =>
    refine ⟨ps, recv_accepted_fresh s f pid v ps accs hf hp ha hfa, rfl, ?_⟩
    intro lp oldt h1 _
    exact Option.noConfusion h1
  | some lp =>
    have hgt' : oGtB (some pid) (some lp) = true := hfa ▸ hgt
    have hlpne : lp ≠ pid := lp_ne_of_oGtB hgt'
    have hpidne : pid ≠ lp := Ne.symm hlpne
    cases holdp : pmFind ps lp with
    | none =>
      have hs := hgc lp hfa
      rw [holdp] at hs
      cases hs
    | some oldt =>
      have heq := recv_accepted_switch s f pid v ps accs lp oldt hf hp ha hfa
        hgt' holdp
      by_cases hr : oldt.retain_count - 1 = 0
      · rw [if_pos hr] at heq
        refine ⟨pmErase ps lp, heq, pmFind_pmErase_ne ps hpidne, ?_⟩
        intro lp' oldt' h1 h2
        have hlp2 : lp = lp' := Option.some_inj.mp h1
        subst hlp2
        rw [holdp] at h2
        have hot2 : oldt = oldt' := Option.some_inj.mp h2
        subst hot2
        constructor
        · intro _
          exact pmFind_pmErase_self ps lp
        · intro hne1
          exact absurd (by omega : oldt.retain_count = 1) hne1
      · rw [if_neg hr] at heq
        refine ⟨pmSet ps lp { oldt with retain_count := oldt.retain_count - 1 },
          heq, pmFind_pmSet_ne ps hpidne _, ?_⟩
        intro lp' oldt' h1 h2
        have hlp2 : lp = lp' := Option.some_inj.mp h1
        subst hlp2
        rw [holdp] at h2
        have hot2 : oldt = oldt' := Option.some_inj.mp h2
        subst hot2
        constructor
        · intro h1'
          exact absurd (by omega : oldt.retain_count - 1 = 0) hr
        · intro _
          rw [pmFind_pmSet_self]

theorem tally_conclusion (s : Learner) (f : Nat) (pid : PId) (v : Option Val)
    (ps ps2 : PMap) (accs : AMap)
    (heq : recv_accepted s f pid v = recvAcceptedTally s f pid v (aSet accs f pid) ps2)
    (hfind2 : pmFind ps2 pid = pmFind ps pid)
    (hnm : ∀ t0, pmFind ps pid = some t0 → t0.value = v)
    (hq : (tallyBase ps pid v).accept_count + 1 ≠ (s.quorum_size : Int)) :
    ∃ ps',
      recv_accepted s f pid v =
        Except.ok ({ s with proposals := some ps'
                            acceptors := some (aSet accs f pid) }, []) ∧
      pmFind ps' pid =
        some ⟨(tallyBase ps pid v).accept_count + 1,
              (tallyBase ps pid v).retain_count + 1,
              (tallyBase ps pid v).value⟩ ∧
      (∀ k, k ≠ pid → pmFind ps' k = pmFind ps2 k) := by
  cases hppid : pmFind ps pid with
  | none =>
    have hf2 : pmFind ps2 pid = none := by rw [hfind2, hppid]
    have ht := tally_fresh_entry s f pid v (aSet accs f pid) ps2 hf2
    have hq1 : ¬((1 : Int) = (s.quorum_size : Int)) := by
      simpa [tallyBase, hppid] using hq
    refine ⟨pmSet (pmSet ps2 pid ⟨0, 0, v⟩) pid ⟨1, 1, v⟩, ?_, ?_, ?_⟩
    · rw [heq, ht, if_neg hq1]
    · rw [pmFind_pmSet_self]
      simp [tallyBase, hppid]
    · intro k hk
      rw [pmFind_pmSet_ne _ hk, pmFind_pmSet_ne _ hk]
  | some t0 =>
    have hf2 : pmFind ps2 pid = some t0 := by rw [hfind2, hppid]
    have hval := hnm t0 hppid
    have ht := tally_found s f pid v (aSet accs f pid) ps2 t0 hf2 hval
    have hq1 : ¬(t0.accept_count + 1 = (s.quorum_size : Int)) := by
      simpa [tallyBase, hppid] using hq
    refine ⟨pmSet ps2 pid ⟨t0.accept_count + 1, t0.retain_count + 1, t0.value⟩,
      ?_, ?_, ?_⟩
    · rw [heq, ht, if_neg hq1]
    · rw [pmFind_pmSet_self]
      simp [tallyBase, hppid]
    · intro k hk
      rw [pmFind_pmSet_ne _ hk]

theorem tally_conclusion_res (s : Learner) (f : Nat) (pid : PId) (v : Option Val)
    (ps ps2 : PMap) (accs : AMap)
    (heq : recv_accepted s f pid v = recvAcceptedTally s f pid v (aSet accs f pid) ps2)
    (hfind2 : pmFind ps2 pid = pmFind ps pid)
    (hnm : ∀ t0, pmFind ps pid = some t0 → t0.value = v)
    (hq : (tallyBase ps pid v).accept_count + 1 = (s.quorum_size : Int)) :
    recv_accepted s f pid v =
      Except.ok ({ s with final_value := v
                          final_proposal_id := some pid
                          proposals := none
                          acceptors := none },
                 [Msg.resolution pid v]) := by
  cases hppid : pmFind ps pid with
  | none =>
    have hf2 : pmFind ps2 pid = none := by rw [hfind2, hppid]
    have ht := tally_fresh_entry s f pid v (aSet accs f pid) ps2 hf2
    have hq1 : (1 : Int) = (s.quorum_size : Int) := by
      simpa [tallyBase, hppid] using hq
    rw [heq, ht, if_pos hq1]
  | some t0 =>
    have hf2 : pmFind ps2 pid = some t0 := by rw [hfind2, hppid]
    have hval := hnm t0 hppid
    have ht := tally_found s f pid v (aSet accs f pid) ps2 t0 hf2 hval
    have hq1 : t0.accept_count + 1 = (s.quorum_size : Int) := by
      simpa [tallyBase, hppid] using hq
    rw [heq, ht, if_pos hq1]



/-- C5: before resolution, a stale or duplicate Accepted (`proposal_id` not
strictly greater than the last id recorded for `from_uid`, absent below every
real id) leaves the Learner unchanged; otherwise `acceptors[from_uid]`
becomes `proposal_id`, the previously recorded proposal loses one
`retain_count` (its entry deleted when the count reaches zero), and the new
proposal gains one `accept_count` and one `retain_count`. -/
theorem C5_recv_accepted_tally (s : Learner) (f : Nat) (pid : PId)
    (v : Option Val) (ps : PMap) (accs : AMap)
    (hf : s.final_value = none) (hp : s.proposals = some ps)
    (ha : s.acceptors = some accs) :
    (oGtB (some pid) (aFind accs f) = false →
      recv_accepted s f pid v = Except.ok (s, [])) ∧
    (oGtB (some pid) (aFind accs f) = true →
     (∀ lp, aFind accs f = some lp → (pmFind ps lp).isSome = true) →
     (∀ t0, pmFind ps pid = some t0 → t0.value = v) →
     (tallyBase ps pid v).accept_count + 1 ≠ (s.quorum_size : Int) →
     ∃ ps' accs',
       recv_accepted s f pid v =
         Except.ok ({ s with proposals := some ps'
                             acceptors := some accs' }, []) ∧
       aFind accs' f = some pid ∧
       (∀ u, u ≠ f → aFind accs' u = aFind accs u) ∧
       pmFind ps' pid =
         some ⟨(tallyBase ps pid v).accept_count + 1,
               (tallyBase ps pid v).retain_count + 1,
               (tallyBase ps pid v).value⟩ ∧
       (∀ lp oldt, aFind accs f = some lp → pmFind ps lp = some oldt →
         ((oldt.retain_count = 1 → pmFind ps' lp = none) ∧
          (oldt.retain_count ≠ 1 →
            pmFind ps' lp =
              some ⟨oldt.accept_count, oldt.retain_count - 1, oldt.value⟩)))) := by
  constructor
  · intro hng
    exact recv_accepted_stale s f pid v ps accs hf hp ha hng
  · intro hgt hgc hnm hq
    obtain ⟨ps2, heq, hfind2, hgcdesc⟩ :=
      recv_accepted_nonstale_eq s f pid v ps accs hf hp ha hgt hgc
    obtain ⟨ps', h1, h2, h3⟩ :=
      tally_conclusion s f pid v ps ps2 accs heq hfind2 hnm hq
    refine ⟨ps', aSet accs f pid, h1, aFind_aSet_self accs f pid,
      (fun u hu => aFind_aSet_ne accs hu pid), h2, ?_⟩
    intro lp oldt ha1 ha2
    have hgt' : oGtB (some pid) (some lp) = true := ha1 ▸ hgt
    have hlpne : lp ≠ pid := lp_ne_of_oGtB hgt'
    have hd := hgcdesc lp oldt ha1 ha2
    exact ⟨fun hr1 => by rw [h3 lp hlpne]; exact hd.1 hr1,
           fun hr1 => by rw [h3 lp hlpne]; exact hd.2 hr1⟩

/-- C9: a non-stale Accepted for a `proposal_id` already present in
`proposals` with a different stored value makes `recv_accepted` fail its
assertion (fatal abort); when every Accepted for that id carries the stored
value, the assertion never fires and the call completes normally. -/
theorem C9_learner_assert (s : Learner) (f : Nat) (pid : PId) (v : Option Val)
    (ps : PMap) (accs : AMap) (t0 : LProp)
    (hf : s.final_value = none) (hp : s.proposals = some ps)
    (ha : s.acceptors = some accs)
    (hgt : oGtB (some pid) (aFind accs f) = true)
    (hgc : ∀ lp, aFind accs f = some lp → (pmFind ps lp).isSome = true) :
    (pmFind ps pid = some t0 → t0.value ≠ v →
      recv_accepted s f pid v = Except.error LErr.assertionError) ∧
    ((∀ t1, pmFind ps pid = some t1 → t1.value = v) →
      ∃ r, recv_accepted s f pid v = Except.ok r) := by
  obtain ⟨ps2, heq, hfind2, _⟩ :=
    recv_accepted_nonstale_eq s f pid v ps accs hf hp ha hgt hgc
  constructor
  · intro hfind hne
    rw [heq]
    exact tally_mismatch s f pid v (aSet accs f pid) ps2 t0
      (by rw [hfind2, hfind]) hne
  · intro hnm
    cases hppid : pmFind ps pid with
    | none =>
      rw [heq, tally_fresh_entry s f pid v (aSet accs f pid) ps2
        (by rw [hfind2, hppid])]
      split
      · exact ⟨_, rfl⟩
      · exact ⟨_, rfl⟩
    | some t1 =>
      rw [heq, tally_found s f pid v (aSet accs f pid) ps2 t1
        (by rw [hfind2, hppid]) (hnm t1 hppid)]
      split
      · exact ⟨_, rfl⟩
      · exact ⟨_, rfl⟩

/-- C6 (amended): when `recv_accepted` brings `accept_count` to exactly
`quorum_size`, it sets `final_value` and `final_proposal_id`, discards the
working maps, and signals `on_resolution(proposal_id, value)`; and provided
the resolved value is not the "no value" sentinel (`final_value = some w`),
every further `recv_accepted` sequence leaves the state unchanged and never
signals `on_resolution` again.  (The unamended claim fails when the resolved
value is the sentinel `None`: see the counterexample.) -/
theorem C6_resolution_stability (s : Learner) (f : Nat) (pid : PId)
    (v : Option Val) (ps : PMap) (accs : AMap) (s2 : Learner) (w : Val)
    (calls : List AcceptedIn)
    (hf : s.final_value = none) (hp : s.proposals = some ps)
    (ha : s.acceptors = some accs)
    (hgt : oGtB (some pid) (aFind accs f) = true)
    (hgc : ∀ lp, aFind accs f = some lp → (pmFind ps lp).isSome = true)
    (hnm : ∀ t0, pmFind ps pid = some t0 → t0.value = v)
    (hq : (tallyBase ps pid v).accept_count + 1 = (s.quorum_size : Int)) :
    recv_accepted s f pid v =
      Except.ok ({ s with final_value := v
                          final_proposal_id := some pid
                          proposals := none
                          acceptors := none },
                 [Msg.resolution pid v]) ∧
    (s2.final_value = some w → runAccepted s2 calls = Except.ok (s2, [])) := by
  obtain ⟨ps2, heq, hfind2, _⟩ :=
    recv_accepted_nonstale_eq s f pid v ps accs hf hp ha hgt hgc
  exact ⟨tally_conclusion_res s f pid v ps ps2 accs heq hfind2 hnm hq,
         fun h2 => runAccepted_resolved calls s2 w h2⟩

/-- Counterexample to C6 as stated: with quorum 1, an Accepted carrying the
sentinel value `None` resolves the instance (resolution signalled,
`final_proposal_id` set), yet a further `recv_accepted` on the same instance
signals `on_resolution` a second time and changes `final_value` from `None`
to `"x"`, because the completion guard tests `final_value is not None`. -/
theorem C6_sentinel_counterexample :
    recv_accepted { quorum_size := 1 } 1 (1, 1) none
      = Except.ok ({ quorum_size := 1, final_proposal_id := some (1, 1) },
          [Msg.resolution (1, 1) none]) ∧
    recv_accepted { quorum_size := 1, final_proposal_id := some (1, 1) } 2 (2, 2)
        (some (Val.str "x"))
      = Except.ok
          ({ quorum_size := 1, final_value := some (Val.str "x"),
             final_proposal_id := some (2, 2) },
           [Msg.resolution (2, 2) (some (Val.str "x"))]) ∧
    some (Val.str "x") ≠ (none : Option Val) :=
  ⟨rfl, rfl, by decide⟩



/-- Witness for C5: acceptor 1 switches from `(1,1)` (sole retainer, entry
deleted) to `(2,2)` (fresh entry `{1, 1, "y"}`). -/
theorem C5_recv_accepted_tally_witness :
    ∃ ps' accs',
      recv_accepted C5state 1 (2, 2) (some (Val.str "y"))
        = Except.ok ({ C5state with proposals := some ps'
                                    acceptors := some accs' }, []) ∧
      aFind accs' 1 = some (2, 2) ∧
      (∀ u, u ≠ 1 → aFind accs' u = aFind [(1, (1, 1))] u) ∧
      pmFind ps' (2, 2) = some ⟨1, 1, some (Val.str "y")⟩ ∧
      (∀ lp oldt, aFind [(1, (1, 1))] 1 = some lp →
        pmFind [((1, 1), ⟨1, 1, some (Val.str "x")⟩)] lp = some oldt →
        ((oldt.retain_count = 1 → pmFind ps' lp = none) ∧
         (oldt.retain_count ≠ 1 →
           pmFind ps' lp =
             some ⟨oldt.accept_count, oldt.retain_count - 1, oldt.value⟩))) :=
  (C5_recv_accepted_tally C5state 1 (2, 2) (some (Val.str "y"))
      [((1, 1), ⟨1, 1, some (Val.str "x")⟩)] [(1, (1, 1))] rfl rfl rfl).2
    (by decide)
    (fun lp hlp => by
      have h2 : ((1 : Int), (1 : Nat)) = lp := Option.some_inj.mp hlp
      subst h2
      decide)
    (fun t0 h => Option.noConfusion (show (none : Option LProp) = some t0 from h))
    (by decide)

/-- Witness for C9: a second value `"y"` for proposal `(1,1)` whose stored
value is `"x"` aborts with the assertion error. -/
theorem C9_learner_assert_witness :
    recv_accepted C9state 2 (1, 1) (some (Val.str "y"))
      = Except.error LErr.assertionError :=
  (C9_learner_assert C9state 2 (1, 1) (some (Val.str "y"))
      [((1, 1), ⟨1, 1, some (Val.str "x")⟩)] [(1, (1, 1))]
      ⟨1, 1, some (Val.str "x")⟩ rfl rfl rfl (by decide)
      (fun lp hlp => Option.noConfusion (show (none : Option PId) = some lp from hlp))).1
    rfl (by decide)

/-- Witness for C6: quorum 1 resolves at `(1,1)/"x"`; afterwards a further
Accepted changes nothing and emits nothing. -/
theorem C6_resolution_stability_witness :
    recv_accepted C6state 1 (1, 1) (some (Val.str "x"))
      = Except.ok ({ C6state with final_value := some (Val.str "x")
                                  final_proposal_id := some (1, 1)
                                  proposals := none
                                  acceptors := none },
                   [Msg.resolution (1, 1) (some (Val.str "x"))]) ∧
    runAccepted C6res [(2, (2, 2), some (Val.str "y"))] = Except.ok (C6res, []) :=
  ⟨(C6_resolution_stability C6state 1 (1, 1) (some (Val.str "x")) [] []
      C6res (Val.str "x") [(2, (2, 2), some (Val.str "y"))] rfl rfl rfl
      (by decide) (fun lp hlp => Option.noConfusion (show (none : Option PId) = some lp from hlp))
      (fun t0 h => Option.noConfusion (show (none : Option LProp) = some t0 from h)) (by decide)).1,
   (C6_resolution_stability C6state 1 (1, 1) (some (Val.str "x")) [] []
      C6res (Val.str "x") [(2, (2, 2), some (Val.str "y"))] rfl rfl rfl
      (by decide) (fun lp hlp => Option.noConfusion (show (none : Option PId) = some lp from hlp))
      (fun t0 h => Option.noConfusion (show (none : Option LProp) = some t0 from h)) (by decide)).2 rfl⟩

end Paxos
